import Mathlib

/-!
Shallow embedding of the UpscaleImg n8n community node
(nodes/UpscaleImg/UpscaleImg.node.ts), covering the `execute` method:
per-item parameter resolution, multipart form construction, the two
upstream HTTP calls (modelled as injected outcomes), output-item
construction, and the continue-on-failure error policy.
-/

namespace UpscaleImg

/-- A JSON value, as produced for an output item's `json` payload. -/
inductive JVal where
  | num : Nat → JVal
  | str : String → JVal
  | obj : List (String × JVal) → JVal

/-- The keys of a JSON object (empty for non-objects). -/
def jsonKeys : JVal → List String
  | .obj l => l.map Prod.fst
  | _ => []

/-- A binary attachment on an input item: byte buffer plus optional file
name and MIME type (`IBinaryData`).  `getBinaryDataBuffer` yields the
bytes; `fileName` and `mimeType` may be absent or empty strings. -/
structure BinaryData where
  bytes : List Nat
  fileName : Option String
  mimeType : Option String
deriving DecidableEq

/-- The `options` collection parameter: each entry is optional. -/
structure Options where
  outputFormat : Option String
  removeMetadata : Option Bool
  outputBinaryPropertyName : Option String
deriving DecidableEq

/-- The per-item resolved node parameters.  `resizeMode` is kept as a raw
string because `getNodeParameter` returns whatever the host supplies. -/
structure Params where
  binaryPropertyName : String
  resizeMode : String
  scale : Nat
  customWidth : Nat
  customHeight : Nat
  objectFit : String
  options : Options
deriving DecidableEq

/-- The `original` object of the upstream API response. -/
structure OriginalMeta where
  size : Nat
  width : Nat
  height : Nat
  mimeType : String
  fileExt : String
deriving DecidableEq

/-- The `result` object of the upstream API response (includes the signed
download `url`). -/
structure ResultMeta where
  size : Nat
  width : Nat
  height : Nat
  mimeType : String
  fileExt : String
  url : String
deriving DecidableEq

/-- The parsed JSON response of the upload call. -/
structure UpscaleResponse where
  original : OriginalMeta
  result : ResultMeta
deriving DecidableEq

/-- Outcome of a host `httpRequest` call: parsed value, or a thrown error
carrying a message. -/
inductive HttpOutcome (α : Type) where
  | ok : α → HttpOutcome α
  | fail : String → HttpOutcome α
deriving DecidableEq

/-- One input item together with the behaviour of the host collaborators
for that item: the binary attachment under `binaryPropertyName` (none if
absent, making `assertBinaryData` throw), and the outcomes of the upload
and download HTTP calls. -/
structure InputItem where
  params : Params
  binary : Option BinaryData
  upload : HttpOutcome UpscaleResponse
  download : HttpOutcome (List Nat)
deriving DecidableEq

/-- JavaScript string defaulting with the or-operator, as in
`binaryData.fileName || 'image.png'`: both an absent value and the empty
string (falsy) fall back to the default. -/
def strOr (o : Option String) (d : String) : String :=
  match o with
  | none => d
  | some s => if s = "" then d else s

/-- The `image` part of the multipart form: the byte buffer tagged with a
file name and a content type. -/
structure FormImagePart where
  bytes : List Nat
  filename : String
  contentType : String
deriving DecidableEq

/-- The multipart upload form: the image part plus the text fields in
append order. -/
structure UploadForm where
  image : FormImagePart
  fields : List (String × String)
deriving DecidableEq

/-- The resize-mode branch of form construction: `scale` when
`resizeMode === 'scale'`, otherwise `customWidth`, `customHeight`,
`objectFit` (source lines 199-209). -/
def resizeFields (p : Params) : List (String × String) :=
  if p.resizeMode = "scale" then
    [("scale", toString p.scale)]
  else
    [("customWidth", toString p.customWidth),
     ("customHeight", toString p.customHeight),
     ("objectFit", p.objectFit)]

/-- The option-driven form fields: `outputFormat` appended when truthy
(source line 211, so an empty string is skipped), `removeMetadata`
appended whenever defined, `"1"` for true and `"0"` for false
(source lines 214-216). -/
def optionFields (o : Options) : List (String × String) :=
  (match o.outputFormat with
   | some f => if f = "" then [] else [("outputFormat", f)]
   | none => []) ++
  (match o.removeMetadata with
   | some b => [("removeMetadata", if b then "1" else "0")]
   | none => [])

/-- The multipart form built for one item (source lines 196-216). -/
def uploadForm (p : Params) (bd : BinaryData) : UploadForm :=
  { image := { bytes := bd.bytes,
               filename := strOr bd.fileName "image.png",
               contentType := strOr bd.mimeType "image/png" },
    fields := resizeFields p ++ optionFields p.options }

/-- The upload request options (source lines 218-225). -/
structure RequestOptions where
  method : String
  url : String
  authorization : String
deriving DecidableEq

/-- The authenticated POST to the upscale endpoint. -/
def uploadRequest (apiKey : String) : RequestOptions :=
  { method := "POST",
    url := "https://upscaleimg.app/api/v1/upscale",
    authorization := "Bearer " ++ apiKey }

/-- `fileName.replace` of a final dot-extension with the empty string:
the source regex matches one dot followed by one or more non-dot
characters at the end of the string (source line 257); when there is no
such match the name is returned unchanged. -/
def stripLastExt (s : String) : String :=
  let rev := s.data.reverse
  if rev.contains '.' then
    let suffix := rev.takeWhile (fun c => c ≠ '.')
    if suffix = [] then s
    else ⟨(rev.drop (suffix.length + 1)).reverse⟩
  else s

/-- A prepared output binary attachment (`prepareBinaryData` result). -/
structure BinaryAttachment where
  bytes : List Nat
  fileName : String
  mimeType : String
deriving DecidableEq

/-- One entry of the returned data: `json` payload, optional `binary`
attachment map, and the `pairedItem` back-reference. -/
structure OutputItem where
  json : JVal
  binary : Option (List (String × BinaryAttachment))
  pairedItem : Nat

/-- JSON rendering of the response's `original` object. -/
def originalJson (m : OriginalMeta) : JVal :=
  .obj [("size", .num m.size), ("width", .num m.width),
        ("height", .num m.height), ("mimeType", .str m.mimeType),
        ("fileExt", .str m.fileExt)]

/-- JSON built for the output's `result`: the five copied fields, the
`url` is not copied (source lines 269-275). -/
def resultJson (r : ResultMeta) : JVal :=
  .obj [("size", .num r.size), ("width", .num r.width),
        ("height", .num r.height), ("mimeType", .str r.mimeType),
        ("fileExt", .str r.fileExt)]

/-- The `json` payload of a successful output item (source lines 267-276). -/
def successJson (resp : UpscaleResponse) : JVal :=
  .obj [("original", originalJson resp.original),
        ("result", resultJson resp.result)]

/-- Message of the error thrown by the host helper `assertBinaryData`
when the named binary property is absent. -/
def binaryDataErrorMsg : String := "No binary data found"

/-- The body of the per-item try block (source lines 183-281): resolve
the binary attachment, build the form, run the upload and the download,
and assemble the output item; any thrown error is returned as `.error`
with its message. -/
def processItem (it : InputItem) (i : Nat) : Except String OutputItem :=
  match it.binary with
  | none => .error binaryDataErrorMsg
  | some bd =>
    let fileName := strOr bd.fileName "image.png"
    match it.upload with
    | .fail msg => .error msg
    | .ok resp =>
      match it.download with
      | .fail msg => .error msg
      | .ok imageBytes =>
        let outputBinaryPropertyName :=
          strOr it.params.options.outputBinaryPropertyName "data"
        let baseName := stripLastExt fileName
        let outputFileName := baseName ++ "_upscaled." ++ resp.result.fileExt
        .ok { json := successJson resp,
              binary := some [(outputBinaryPropertyName,
                { bytes := imageBytes,
                  fileName := outputFileName,
                  mimeType := resp.result.mimeType })],
              pairedItem := i }

/-- The entry pushed for a failed item when continue-on-failure is
enabled (source lines 284-289): error message as data, no binary key. -/
def errorOutput (msg : String) (i : Nat) : OutputItem :=
  { json := .obj [("error", .str msg)], binary := none, pairedItem := i }

/-- The error thrown when continue-on-failure is disabled (source lines
292-294): the underlying message plus the item index. -/
structure NodeOperationError where
  message : String
  itemIndex : Nat
deriving DecidableEq

/-- The item loop of `execute` starting at item index `i` (source lines
181-296). -/
def executeFrom (continueOnFail : Bool) :
    List InputItem → Nat → Except NodeOperationError (List OutputItem)
  | [], _ => .ok []
  | it :: rest, i =>
    match processItem it i with
    | .ok out =>
      match executeFrom continueOnFail rest (i + 1) with
      | .ok outs => .ok (out :: outs)
      | .error e => .error e
    | .error msg =>
      if continueOnFail then
        match executeFrom continueOnFail rest (i + 1) with
        | .ok outs => .ok (errorOutput msg i :: outs)
        | .error e => .error e
      else
        .error { message := msg, itemIndex := i }

/-- `UpscaleImg.execute`: run the loop over all items from index 0. -/
def execute (continueOnFail : Bool) (items : List InputItem) :
    Except NodeOperationError (List OutputItem) :=
  executeFrom continueOnFail items 0

/-- Whether processing an item reaches the success push: the binary
attachment is present and both HTTP calls succeed. -/
def itemOk (it : InputItem) : Bool :=
  it.binary.isSome &&
  (match it.upload with | .ok _ => true | .fail _ => false) &&
  (match it.download with | .ok _ => true | .fail _ => false)

/-- The file names of the output item's binary attachments, in key
order. -/
def outputFileNames (o : OutputItem) : List String :=
  match o.binary with
  | none => []
  | some l => l.map (fun kv => kv.2.fileName)

/-- The keys of the output item's binary map, in order. -/
def outputBinaryKeys (o : OutputItem) : List String :=
  match o.binary with
  | none => []
  | some l => l.map Prod.fst

/-! Concrete sample data, following the repository's test fixtures. -/

/-- Empty options collection. -/
def noOptions : Options :=
  { outputFormat := none, removeMetadata := none,
    outputBinaryPropertyName := none }

/-- Parameters for a plain 2x scale run. -/
def pScale2 : Params :=
  { binaryPropertyName := "data", resizeMode := "scale", scale := 2,
    customWidth := 1920, customHeight := 1080, objectFit := "cover",
    options := noOptions }

/-- Parameters for a custom-dimensions run. -/
def pCustom : Params :=
  { binaryPropertyName := "data", resizeMode := "customDimensions",
    scale := 2, customWidth := 3840, customHeight := 2160,
    objectFit := "contain", options := noOptions }

/-- A binary attachment named photo.png. -/
def bdPhoto : BinaryData :=
  { bytes := [137, 80, 78, 71], fileName := some "photo.png",
    mimeType := some "image/png" }

/-- A binary attachment with no file name. -/
def bdNoName : BinaryData :=
  { bytes := [137, 80, 78, 71], fileName := none,
    mimeType := some "image/png" }

/-- A binary attachment whose file name is present but empty. -/
def bdEmptyName : BinaryData :=
  { bytes := [137, 80, 78, 71], fileName := some "",
    mimeType := some "image/png" }

/-- The upstream response used by the repository's tests. -/
def sampleResponse : UpscaleResponse :=
  { original := { size := 8, width := 100, height := 100,
                  mimeType := "image/png", fileExt := "png" },
    result := { size := 32, width := 200, height := 200,
                mimeType := "image/webp", fileExt := "webp",
                url := "https://s3.example.com/upscaled.webp?signed=1" } }

/-- An item whose processing succeeds end to end. -/
def sampleItem : InputItem :=
  { params := pScale2, binary := some bdPhoto,
    upload := .ok sampleResponse, download := .ok [1, 2, 3] }

/-- An item whose upload call fails. -/
def failingItem : InputItem :=
  { params := pScale2, binary := some bdPhoto,
    upload := .fail "API request failed", download := .ok [1, 2, 3] }

/-- A successful item with no input file name. -/
def sampleItemNoName : InputItem :=
  { params := pScale2, binary := some bdNoName,
    upload := .ok sampleResponse, download := .ok [1, 2, 3] }

/-- A successful item whose output binary field option is the empty
string. -/
def itemEmptyOutKey : InputItem :=
  { params := { pScale2 with options :=
      { noOptions with outputBinaryPropertyName := some "" } },
    binary := some bdPhoto,
    upload := .ok sampleResponse, download := .ok [1, 2, 3] }

/-- A successful item whose output binary field option is the default
name itself. -/
def itemDataOutKey : InputItem :=
  { params := { pScale2 with options :=
      { noOptions with outputBinaryPropertyName := some "data" } },
    binary := some bdPhoto,
    upload := .ok sampleResponse, download := .ok [1, 2, 3] }

/-- Parameters with a resize mode that is neither of the two documented
values. -/
def pWeird : Params :=
  { binaryPropertyName := "data", resizeMode := "bogus", scale := 2,
    customWidth := 640, customHeight := 480, objectFit := "fill",
    options := noOptions }

/-- The output produced for sampleItem. -/
def sampleOut : OutputItem :=
  { json := successJson sampleResponse,
    binary := some [("data",
      { bytes := [1, 2, 3], fileName := "photo_upscaled.webp",
        mimeType := "image/webp" })],
    pairedItem := 0 }

/-- The output produced for sampleItemNoName. -/
def sampleOutNoName : OutputItem :=
  { json := successJson sampleResponse,
    binary := some [("data",
      { bytes := [1, 2, 3], fileName := "image_upscaled.webp",
        mimeType := "image/webp" })],
    pairedItem := 0 }

/-- A successful item with a custom output binary field name. -/
def itemCustomOutKey : InputItem :=
  { params := { pScale2 with options :=
      { noOptions with outputBinaryPropertyName := some "upscaledImage" } },
    binary := some bdPhoto,
    upload := .ok sampleResponse, download := .ok [1, 2, 3] }

/-- The output produced for itemCustomOutKey. -/
def sampleOutCustomKey : OutputItem :=
  { json := successJson sampleResponse,
    binary := some [("upscaledImage",
      { bytes := [1, 2, 3], fileName := "photo_upscaled.webp",
        mimeType := "image/webp" })],
    pairedItem := 0 }

/-- The entry the loop pushes for one item when continue-on-failure is
enabled: the success output, or the error entry. -/
def itemEntry (it : InputItem) (i : Nat) : OutputItem :=
  match processItem it i with
  | .ok out => out
  | .error msg => errorOutput msg i

/-! Helper lemmas about form-field lookup. -/

/-- Looking up the key at the head of an association list. -/
theorem lookup_cons_self {β : Type} (k : String) (v : β)
    (l : List (String × β)) : ((k, v) :: l).lookup k = some v := by
  simp [List.lookup]

/-- Looking up past a head entry with a different key. -/
theorem lookup_cons_ne {β : Type} {k a : String} (v : β)
    (l : List (String × β)) (h : k ≠ a) :
    ((a, v) :: l).lookup k = l.lookup k := by
  have hb : (k == a) = false := beq_eq_false_iff_ne.mpr h
  simp [List.lookup, hb]

/-- Option-driven fields never use the resize-branch keys. -/
theorem lookup_optionFields_ne (o : Options) (k : String)
    (h1 : k ≠ "outputFormat") (h2 : k ≠ "removeMetadata") :
    (optionFields o).lookup k = none := by
  have hb1 : (k == "outputFormat") = false := beq_eq_false_iff_ne.mpr h1
  have hb2 : (k == "removeMetadata") = false := beq_eq_false_iff_ne.mpr h2
  obtain ⟨of, rm, ob⟩ := o
  rcases of with _ | f <;> rcases rm with _ | b <;>
    simp [optionFields, List.lookup, hb1, hb2] <;> aesop

/-- Looking up `removeMetadata` in the option-driven fields. -/
theorem lookup_optionFields_removeMetadata (o : Options) :
    (optionFields o).lookup "removeMetadata" =
      match o.removeMetadata with
      | some true => some "1"
      | some false => some "0"
      | none => none := by
  obtain ⟨of, rm, ob⟩ := o
  rcases of with _ | f
  · rcases rm with _ | b
    · rfl
    · cases b <;> simp [optionFields, List.lookup]
  · rcases rm with _ | b
    · by_cases hf : f = "" <;>
        simp [optionFields, List.lookup, hf]
    · by_cases hf : f = "" <;> cases b <;>
        simp [optionFields, List.lookup, hf]

/-- Skipping the resize-branch fields when looking up an option key. -/
theorem lookup_fields_past_resize (p : Params) (k : String)
    (h1 : k ≠ "scale") (h2 : k ≠ "customWidth") (h3 : k ≠ "customHeight")
    (h4 : k ≠ "objectFit") :
    (resizeFields p ++ optionFields p.options).lookup k =
      (optionFields p.options).lookup k := by
  unfold resizeFields
  by_cases hm : p.resizeMode = "scale"
  · rw [if_pos hm, List.cons_append, lookup_cons_ne _ _ h1, List.nil_append]
  · rw [if_neg hm, List.cons_append, lookup_cons_ne _ _ h2,
      List.cons_append, lookup_cons_ne _ _ h3,
      List.cons_append, lookup_cons_ne _ _ h4, List.nil_append]

/-- In the non-scale branch the form fields start with the three custom
fields, and there is no `scale` field anywhere. -/
theorem lookup_custom_branch (p : Params) (bd : BinaryData)
    (hm : ¬ p.resizeMode = "scale") :
    (uploadForm p bd).fields.lookup "customWidth"
        = some (toString p.customWidth) ∧
    (uploadForm p bd).fields.lookup "customHeight"
        = some (toString p.customHeight) ∧
    (uploadForm p bd).fields.lookup "objectFit" = some p.objectFit ∧
    (uploadForm p bd).fields.lookup "scale" = none := by
  have hfields : (uploadForm p bd).fields =
      ("customWidth", toString p.customWidth) ::
      ("customHeight", toString p.customHeight) ::
      ("objectFit", p.objectFit) :: optionFields p.options := by
    simp [uploadForm, resizeFields, hm]
  rw [hfields]
  refine ⟨lookup_cons_self _ _ _, ?_, ?_, ?_⟩
  · rw [lookup_cons_ne _ _ (by decide)]; exact lookup_cons_self _ _ _
  · rw [lookup_cons_ne _ _ (by decide), lookup_cons_ne _ _ (by decide)]
    exact lookup_cons_self _ _ _
  · rw [lookup_cons_ne _ _ (by decide), lookup_cons_ne _ _ (by decide),
      lookup_cons_ne _ _ (by decide)]
    exact lookup_optionFields_ne p.options "scale" (by decide) (by decide)

/-! Claim theorems about the upload form fields. -/

/-- C3: the upload form contains a removeMetadata field exactly when
options.removeMetadata is defined: value "1" when it is true, "0" when
it is false, and no such field at all when it is unset, so unset is
distinguished from false. -/
theorem form_removeMetadata_field (p : Params) (bd : BinaryData) :
    (uploadForm p bd).fields.lookup "removeMetadata" =
      match p.options.removeMetadata with
      | some true => some "1"
      | some false => some "0"
      | none => none := by
  have hfields : (uploadForm p bd).fields =
      resizeFields p ++ optionFields p.options := rfl
  rw [hfields,
    lookup_fields_past_resize p "removeMetadata"
      (by decide) (by decide) (by decide) (by decide),
    lookup_optionFields_removeMetadata]

/-- C4: in scale mode with scale factor 2 or 4 the upload form has a
scale field holding the decimal string of the factor and no
customWidth, customHeight or objectFit field. -/
theorem form_scale_mode_fields (p : Params) (bd : BinaryData)
    (hm : p.resizeMode = "scale") (_hs : p.scale = 2 ∨ p.scale = 4) :
    (uploadForm p bd).fields.lookup "scale" = some (toString p.scale) ∧
    (uploadForm p bd).fields.lookup "customWidth" = none ∧
    (uploadForm p bd).fields.lookup "customHeight" = none ∧
    (uploadForm p bd).fields.lookup "objectFit" = none := by
  have hfields : (uploadForm p bd).fields =
      ("scale", toString p.scale) :: optionFields p.options := by
    simp [uploadForm, resizeFields, hm]
  rw [hfields]
  refine ⟨lookup_cons_self _ _ _, ?_, ?_, ?_⟩ <;>
    rw [lookup_cons_ne _ _ (by decide)] <;>
    exact lookup_optionFields_ne p.options _ (by decide) (by decide)

/-- C4 witness: the 2x sample parameters. -/
theorem form_scale_mode_fields_witness :
    (uploadForm pScale2 bdPhoto).fields.lookup "scale"
        = some (toString pScale2.scale) ∧
    (uploadForm pScale2 bdPhoto).fields.lookup "customWidth" = none ∧
    (uploadForm pScale2 bdPhoto).fields.lookup "customHeight" = none ∧
    (uploadForm pScale2 bdPhoto).fields.lookup "objectFit" = none :=
  form_scale_mode_fields pScale2 bdPhoto rfl (Or.inl rfl)

/-- C5: in customDimensions mode the upload form has customWidth and
customHeight as decimal strings and objectFit as a raw string, and no
scale field. -/
theorem form_customDimensions_fields (p : Params) (bd : BinaryData)
    (hm : p.resizeMode = "customDimensions") :
    (uploadForm p bd).fields.lookup "customWidth"
        = some (toString p.customWidth) ∧
    (uploadForm p bd).fields.lookup "customHeight"
        = some (toString p.customHeight) ∧
    (uploadForm p bd).fields.lookup "objectFit" = some p.objectFit ∧
    (uploadForm p bd).fields.lookup "scale" = none :=
  lookup_custom_branch p bd (by rw [hm]; decide)

/-- C5 witness: the custom-dimensions sample parameters. -/
theorem form_customDimensions_fields_witness :
    (uploadForm pCustom bdPhoto).fields.lookup "customWidth"
        = some (toString pCustom.customWidth) ∧
    (uploadForm pCustom bdPhoto).fields.lookup "customHeight"
        = some (toString pCustom.customHeight) ∧
    (uploadForm pCustom bdPhoto).fields.lookup "objectFit"
        = some pCustom.objectFit ∧
    (uploadForm pCustom bdPhoto).fields.lookup "scale" = none :=
  form_customDimensions_fields pCustom bdPhoto rfl

/-- C10: any resize mode other than exactly "scale" takes the
custom-dimensions branch and appends the three custom form fields, with
no scale field, rather than failing on an unrecognized mode. -/
theorem form_unrecognized_mode_custom_branch (p : Params)
    (bd : BinaryData) (hm : p.resizeMode ≠ "scale") :
    (uploadForm p bd).fields.lookup "customWidth"
        = some (toString p.customWidth) ∧
    (uploadForm p bd).fields.lookup "customHeight"
        = some (toString p.customHeight) ∧
    (uploadForm p bd).fields.lookup "objectFit" = some p.objectFit ∧
    (uploadForm p bd).fields.lookup "scale" = none :=
  lookup_custom_branch p bd hm

/-- C10 witness: a resize mode that is neither documented value. -/
theorem form_unrecognized_mode_custom_branch_witness :
    (uploadForm pWeird bdPhoto).fields.lookup "customWidth"
        = some (toString pWeird.customWidth) ∧
    (uploadForm pWeird bdPhoto).fields.lookup "customHeight"
        = some (toString pWeird.customHeight) ∧
    (uploadForm pWeird bdPhoto).fields.lookup "objectFit"
        = some pWeird.objectFit ∧
    (uploadForm pWeird bdPhoto).fields.lookup "scale" = none :=
  form_unrecognized_mode_custom_branch pWeird bdPhoto (by decide)

/-! The success path of processItem, and claims about the output item. -/

/-- What processItem produces when the binary attachment is present and
both HTTP calls succeed. -/
theorem processItem_ok (it : InputItem) (i : Nat) (bd : BinaryData)
    (resp : UpscaleResponse) (dl : List Nat)
    (hb : it.binary = some bd) (hu : it.upload = .ok resp)
    (hd : it.download = .ok dl) :
    processItem it i = .ok
      { json := successJson resp,
        binary := some
          [(strOr it.params.options.outputBinaryPropertyName "data",
            { bytes := dl,
              fileName := stripLastExt (strOr bd.fileName "image.png")
                ++ "_upscaled." ++ resp.result.fileExt,
              mimeType := resp.result.mimeType })],
        pairedItem := i } := by
  unfold processItem
  rw [hb, hu, hd]

/-- C6: the successful output's result JSON carries exactly the size,
width, height, mimeType and fileExt fields of the upstream result and
no url key, and the original object is passed through unchanged. -/
theorem output_json_shape (it : InputItem) (i : Nat) (bd : BinaryData)
    (resp : UpscaleResponse) (dl : List Nat) (out : OutputItem)
    (hb : it.binary = some bd) (hu : it.upload = .ok resp)
    (hd : it.download = .ok dl) (hout : processItem it i = .ok out) :
    out.json = JVal.obj [("original", originalJson resp.original),
      ("result", resultJson resp.result)] ∧
    jsonKeys (resultJson resp.result)
      = ["size", "width", "height", "mimeType", "fileExt"] ∧
    "url" ∉ jsonKeys (resultJson resp.result) := by
  have h := processItem_ok it i bd resp dl hb hu hd
  injection hout.symm.trans h with he
  subst he
  exact ⟨rfl, rfl, by simp [jsonKeys, resultJson]⟩

/-- C6 witness: the sample item. -/
theorem output_json_shape_witness :
    sampleOut.json = JVal.obj
      [("original", originalJson sampleResponse.original),
       ("result", resultJson sampleResponse.result)] ∧
    jsonKeys (resultJson sampleResponse.result)
      = ["size", "width", "height", "mimeType", "fileExt"] ∧
    "url" ∉ jsonKeys (resultJson sampleResponse.result) :=
  output_json_shape sampleItem 0 bdPhoto sampleResponse [1, 2, 3]
    sampleOut rfl rfl rfl rfl

/-- takeWhile passes over a prefix whose entries all satisfy the
predicate. -/
theorem takeWhile_append_all (p : Char → Bool) (l1 l2 : List Char)
    (h : ∀ c ∈ l1, p c = true) :
    (l1 ++ l2).takeWhile p = l1 ++ l2.takeWhile p := by
  induction l1 with
  | nil => rfl
  | cons c l ih =>
    have hc := h c (List.mem_cons_self _ _)
    have ihl := ih (fun x hx => h x (List.mem_cons_of_mem _ hx))
    simp [List.takeWhile_cons, hc, ihl]

/-- The embedded replace-regex strips exactly the last dot-extension:
on a name of the form base.ext with ext non-empty and dot-free it
returns the base. -/
theorem stripLastExt_strips (a b : String) (hb : b ≠ "")
    (hdot : ∀ c ∈ b.data, c ≠ '.') :
    stripLastExt (a ++ "." ++ b) = a := by
  have hdata : (a ++ "." ++ b).data = a.data ++ '.' :: b.data := by
    simp [String.data_append]
  have hrev : (a ++ "." ++ b).data.reverse
      = b.data.reverse ++ '.' :: a.data.reverse := by
    rw [hdata]; simp
  have hbne : b.data.reverse ≠ [] := by
    intro h0
    apply hb
    cases b
    simp_all
  simp only [stripLastExt, hrev]
  rw [takeWhile_append_all _ _ _ (fun c hc => by
    simp [hdot c (List.mem_reverse.mp hc)])]
  have htw : ('.' :: a.data.reverse).takeWhile
      (fun c => decide ¬(c = '.')) = [] := by
    simp [List.takeWhile_cons]
  rw [htw, List.append_nil, if_neg hbne]
  have hsplit : b.data.reverse ++ '.' :: a.data.reverse
      = (b.data.reverse ++ ['.']) ++ a.data.reverse := by simp
  have hlen : b.data.reverse.length + 1
      = (b.data.reverse ++ ['.']).length := by simp
  rw [hsplit, hlen, List.drop_left, List.reverse_reverse]
  have hcont : (b.data.reverse ++ ['.'] ++ a.data.reverse).contains '.'
      = true := by simp
  rw [if_pos hcont]

/-- The embedded replace-regex leaves a dot-free name unchanged. -/
theorem stripLastExt_no_dot (s : String) (h : ∀ c ∈ s.data, c ≠ '.') :
    stripLastExt s = s := by
  have hcont : (s.data.reverse.contains '.') = false := by
    simp [List.mem_reverse]
    intro hc
    exact h '.' hc rfl
  simp only [stripLastExt, hcont]
  rfl

/-- C7: the output attachment's file name is the resolved input file
name with its last dot-extension stripped, then "_upscaled." and the
upstream result's fileExt; with no input file name the basename
defaults from image.png to image. -/
theorem output_file_name_rule (it : InputItem) (i : Nat) (bd : BinaryData)
    (resp : UpscaleResponse) (dl : List Nat) (out : OutputItem)
    (hb : it.binary = some bd) (hu : it.upload = .ok resp)
    (hd : it.download = .ok dl) (hout : processItem it i = .ok out) :
    outputFileNames out =
      [stripLastExt (strOr bd.fileName "image.png")
        ++ "_upscaled." ++ resp.result.fileExt] ∧
    (bd.fileName = none →
      outputFileNames out
        = ["image_upscaled." ++ resp.result.fileExt]) := by
  have h := processItem_ok it i bd resp dl hb hu hd
  injection hout.symm.trans h with he
  subst he
  constructor
  · rfl
  · intro hn
    have h1 : stripLastExt (strOr bd.fileName "image.png") = "image" := by
      rw [hn]; decide
    simp [outputFileNames, h1]

/-- C7 witness: the sample item with no input file name. -/
theorem output_file_name_rule_witness :
    outputFileNames sampleOutNoName =
      [stripLastExt (strOr bdNoName.fileName "image.png")
        ++ "_upscaled." ++ sampleResponse.result.fileExt] ∧
    (bdNoName.fileName = none →
      outputFileNames sampleOutNoName
        = ["image_upscaled." ++ sampleResponse.result.fileExt]) :=
  output_file_name_rule sampleItemNoName 0 bdNoName sampleResponse
    [1, 2, 3] sampleOutNoName rfl rfl rfl rfl

/-- C8 counterexample: an attachment that provides the empty string as
its file name is tagged image.png in the form's image part, not the
provided value, because the source defaults with the falsy-or
operator. -/
theorem upload_image_tagging_cex :
    bdEmptyName.fileName = some "" ∧
    (uploadForm pScale2 bdEmptyName).image.filename = "image.png" ∧
    ("image.png" : String) ≠ "" :=
  ⟨rfl, rfl, by decide⟩

/-- C8 amended: an omitted or empty file name or MIME type falls back
to image.png and image/png respectively; a provided non-empty value is
used as given. -/
theorem upload_image_tagging (p : Params) (bd : BinaryData) :
    ((bd.fileName = none ∨ bd.fileName = some "") →
      (uploadForm p bd).image.filename = "image.png") ∧
    (∀ s, s ≠ "" → bd.fileName = some s →
      (uploadForm p bd).image.filename = s) ∧
    ((bd.mimeType = none ∨ bd.mimeType = some "") →
      (uploadForm p bd).image.contentType = "image/png") ∧
    (∀ s, s ≠ "" → bd.mimeType = some s →
      (uploadForm p bd).image.contentType = s) := by
  refine ⟨?_, ?_, ?_, ?_⟩
  · rintro (h | h) <;> simp [uploadForm, strOr, h]
  · intro s hs h; simp [uploadForm, strOr, h, hs]
  · rintro (h | h) <;> simp [uploadForm, strOr, h]
  · intro s hs h; simp [uploadForm, strOr, h, hs]

/-- C8 witness: a provided non-empty name is kept, an absent one falls
back. -/
theorem upload_image_tagging_witness :
    (uploadForm pScale2 bdPhoto).image.filename = "photo.png" ∧
    (uploadForm pScale2 bdNoName).image.filename = "image.png" :=
  ⟨(upload_image_tagging pScale2 bdPhoto).2.1 "photo.png" (by decide) rfl,
   (upload_image_tagging pScale2 bdNoName).1 (Or.inl rfl)⟩

/-- C9 counterexample: with the output binary field option set to the
empty string the attachment is stored under data rather than under the
set key, and with it set to data itself the default key data is present
rather than absent. -/
theorem output_binary_key_cex :
    itemEmptyOutKey.params.options.outputBinaryPropertyName = some "" ∧
    (processItem itemEmptyOutKey 0).map outputBinaryKeys
      = .ok ["data"] ∧
    itemDataOutKey.params.options.outputBinaryPropertyName
      = some "data" ∧
    (processItem itemDataOutKey 0).map outputBinaryKeys
      = .ok ["data"] ∧
    ("data" : String) ≠ "" :=
  ⟨rfl, rfl, rfl, rfl, by decide⟩

/-- C9 amended: when the output binary field option is a non-empty
string, the attachment is stored under exactly that key as the only
binary entry, so data is absent whenever that key differs from data;
when the option is unset or empty, the attachment is stored under
data. -/
theorem output_binary_key_amended (it : InputItem) (i : Nat)
    (bd : BinaryData) (resp : UpscaleResponse) (dl : List Nat)
    (out : OutputItem)
    (hb : it.binary = some bd) (hu : it.upload = .ok resp)
    (hd : it.download = .ok dl) (hout : processItem it i = .ok out) :
    (∀ s, s ≠ "" →
      it.params.options.outputBinaryPropertyName = some s →
      outputBinaryKeys out = [s] ∧
        (s ≠ "data" → "data" ∉ outputBinaryKeys out)) ∧
    ((it.params.options.outputBinaryPropertyName = none ∨
      it.params.options.outputBinaryPropertyName = some "") →
      outputBinaryKeys out = ["data"]) := by
  have h := processItem_ok it i bd resp dl hb hu hd
  injection hout.symm.trans h with he
  subst he
  constructor
  · intro s hs hset
    have hk : outputBinaryKeys
        { json := successJson resp,
          binary := some
            [(strOr it.params.options.outputBinaryPropertyName "data",
              { bytes := dl,
                fileName := stripLastExt (strOr bd.fileName "image.png")
                  ++ "_upscaled." ++ resp.result.fileExt,
                mimeType := resp.result.mimeType })],
          pairedItem := i } = [s] := by
      simp [outputBinaryKeys, strOr, hset, hs]
    refine ⟨hk, ?_⟩
    intro hsd hmem
    rw [hk] at hmem
    exact hsd (List.mem_singleton.mp hmem).symm
  · rintro (hset | hset) <;> simp [outputBinaryKeys, strOr, hset]

/-- C9 witness: a non-empty custom key relocates the attachment, an
unset option keeps the default key. -/
theorem output_binary_key_amended_witness :
    outputBinaryKeys sampleOutCustomKey = ["upscaledImage"] ∧
    outputBinaryKeys sampleOut = ["data"] :=
  ⟨((output_binary_key_amended itemCustomOutKey 0 bdPhoto sampleResponse
      [1, 2, 3] sampleOutCustomKey rfl rfl rfl rfl).1 "upscaledImage"
      (by decide) rfl).1,
   (output_binary_key_amended sampleItem 0 bdPhoto sampleResponse
      [1, 2, 3] sampleOut rfl rfl rfl rfl).2 (Or.inl rfl)⟩

/-! The item loop: counting, ordering and the error policy. -/

/-- A successful processItem result is paired with its own index. -/
theorem processItem_pairedItem (it : InputItem) (i : Nat)
    (out : OutputItem) (h : processItem it i = .ok out) :
    out.pairedItem = i := by
  obtain ⟨p, ib, iu, idl⟩ := it
  unfold processItem at h
  rcases ib with _ | bd
  · cases h
  · rcases iu with resp | msg
    · rcases idl with dl | msg
      · injection h with he
        rw [← he]
      · cases h
    · cases h

/-- An item that passes the itemOk check processes successfully at any
index. -/
theorem processItem_isOk_of_itemOk (it : InputItem) (i : Nat)
    (h : itemOk it = true) : ∃ out, processItem it i = .ok out := by
  obtain ⟨p, ib, iu, idl⟩ := it
  rcases ib with _ | bd
  · simp [itemOk] at h
  · rcases iu with resp | msg
    · rcases idl with dl | msg
      · exact ⟨_, rfl⟩
      · simp [itemOk] at h
    · simp [itemOk] at h

/-- With continue-on-failure enabled the loop never aborts and yields
exactly one entry per item, each computed at its own index. -/
theorem executeFrom_true_eq (items : List InputItem) (i : Nat) :
    ∃ outs, executeFrom true items i = .ok outs ∧
      outs.length = items.length ∧
      ∀ j, outs.get? j = (items.get? j).map fun it => itemEntry it (i + j) := by
  induction items generalizing i with
  | nil => exact ⟨[], rfl, rfl, by intro j; cases j <;> rfl⟩
  | cons it rest ih =>
    obtain ⟨outs, heq, hlen, hget⟩ := ih (i + 1)
    cases hp : processItem it i with
    | ok out =>
      refine ⟨out :: outs, ?_, by simp [hlen], ?_⟩
      · unfold executeFrom
        rw [hp, heq]
      · intro j
        cases j with
        | zero => simp [itemEntry, hp]
        | succ j =>
          have harith : i + 1 + j = i + (j + 1) := by omega
          have := hget j
          rw [harith] at this
          exact this
    | error msg =>
      refine ⟨errorOutput msg i :: outs, ?_, by simp [hlen], ?_⟩
      · unfold executeFrom
        rw [hp, heq]
        rfl
      · intro j
        cases j with
        | zero => simp [itemEntry, hp]
        | succ j =>
          have harith : i + 1 + j = i + (j + 1) := by omega
          have := hget j
          rw [harith] at this
          exact this

/-- The loop yields one entry per item, paired in order, whenever
continue-on-failure is enabled or every item is error-free. -/
theorem executeFrom_ok_spec (cof : Bool) (items : List InputItem)
    (i : Nat) (h : cof = true ∨ ∀ it ∈ items, itemOk it = true) :
    ∃ outs, executeFrom cof items i = .ok outs ∧
      outs.length = items.length ∧
      ∀ j out, outs.get? j = some out → out.pairedItem = i + j := by
  induction items generalizing i with
  | nil => exact ⟨[], rfl, rfl, by intro j out hj; cases j <;> cases hj⟩
  | cons it rest ih =>
    have hrest : cof = true ∨ ∀ x ∈ rest, itemOk x = true := by
      rcases h with h | h
      · exact .inl h
      · exact .inr fun x hx => h x (List.mem_cons_of_mem _ hx)
    obtain ⟨outs, heq, hlen, hget⟩ := ih (i + 1) hrest
    cases hp : processItem it i with
    | ok out =>
      refine ⟨out :: outs, ?_, by simp [hlen], ?_⟩
      · unfold executeFrom
        rw [hp, heq]
      · intro j o hj
        cases j with
        | zero =>
          injection hj with ho
          rw [← ho, processItem_pairedItem it i out hp]
          omega
        | succ j =>
          have := hget j o hj
          rw [this]
          omega
    | error msg =>
      rcases h with hcof | hall
      · subst hcof
        refine ⟨errorOutput msg i :: outs, ?_, by simp [hlen], ?_⟩
        · unfold executeFrom
          rw [hp, heq]
          rfl
        · intro j o hj
          cases j with
          | zero =>
            injection hj with ho
            rw [← ho]
            rfl
          | succ j =>
            have := hget j o hj
            rw [this]
            omega
      · obtain ⟨out, hout⟩ :=
          processItem_isOk_of_itemOk it i (hall it (List.mem_cons_self _ _))
        rw [hout] at hp
        cases hp

/-- With continue-on-failure disabled, the first failing item aborts
the loop with that item's index and message. -/
theorem executeFrom_false_abort (items : List InputItem) (i k : Nat)
    (it : InputItem) (msg : String)
    (hit : items.get? i = some it)
    (hfail : processItem it (k + i) = .error msg)
    (hpre : ∀ j jt, j < i → items.get? j = some jt → itemOk jt = true) :
    executeFrom false items k = .error { message := msg, itemIndex := k + i } := by
  induction items generalizing i k with
  | nil => cases hit
  | cons hd rest ih =>
    cases i with
    | zero =>
      injection hit with he
      subst he
      rw [Nat.add_zero] at hfail
      unfold executeFrom
      rw [hfail]
      rfl
    | succ i' =>
      have hok := hpre 0 hd (Nat.succ_pos _) rfl
      obtain ⟨out, hout⟩ := processItem_isOk_of_itemOk hd k hok
      have hfail' : processItem it (k + 1 + i') = .error msg := by
        have harith : k + 1 + i' = k + (i' + 1) := by omega
        rw [harith]
        exact hfail
      have hpre' : ∀ j jt, j < i' → rest.get? j = some jt →
          itemOk jt = true :=
        fun j jt hj hg => hpre (j + 1) jt (by omega) hg
      have hrec := ih i' (k + 1) hit hfail' hpre'
      unfold executeFrom
      rw [hout, hrec]
      have harith : k + 1 + i' = k + (i' + 1) := by omega
      rw [harith]

/-- C1: over N input items, with continue-on-failure enabled or no item
failing, execute returns exactly N entries and the entry at position j
is paired with input index j, in input order. -/
theorem execute_count_and_pairing (cof : Bool) (items : List InputItem)
    (h : cof = true ∨ ∀ it ∈ items, itemOk it = true) :
    ∃ outs, execute cof items = .ok outs ∧
      outs.length = items.length ∧
      ∀ j out, outs.get? j = some out → out.pairedItem = j := by
  obtain ⟨outs, heq, hlen, hget⟩ := executeFrom_ok_spec cof items 0 h
  refine ⟨outs, heq, hlen, fun j out hj => ?_⟩
  have := hget j out hj
  omega

/-- C1 witness: a successful and a failing item with
continue-on-failure enabled. -/
theorem execute_count_and_pairing_witness :
    ∃ outs, execute true [sampleItem, failingItem] = .ok outs ∧
      outs.length = [sampleItem, failingItem].length ∧
      ∀ j out, outs.get? j = some out → out.pairedItem = j :=
  execute_count_and_pairing true [sampleItem, failingItem] (Or.inl rfl)

/-- C2: when item i fails with a message, execute with
continue-on-failure enabled emits the error entry for i only and the
normal output for every other successful item, while with it disabled
(and the items before i error-free) the run aborts with an error
carrying index i and the message, producing no output list. -/
theorem execute_error_policy (items : List InputItem) (i : Nat)
    (it : InputItem) (msg : String)
    (hit : items.get? i = some it)
    (hfail : processItem it i = .error msg) :
    (∃ outs, execute true items = .ok outs ∧
      outs.length = items.length ∧
      outs.get? i = some (errorOutput msg i) ∧
      ∀ j jt out, j ≠ i → items.get? j = some jt →
        processItem jt j = .ok out → outs.get? j = some out) ∧
    ((∀ j jt, j < i → items.get? j = some jt → itemOk jt = true) →
      execute false items = .error { message := msg, itemIndex := i }) := by
  constructor
  · obtain ⟨outs, heq, hlen, hget⟩ := executeFrom_true_eq items 0
    refine ⟨outs, heq, hlen, ?_, ?_⟩
    · have := hget i
      rw [hit] at this
      rw [this]
      simp [itemEntry, hfail]
    · intro j jt out _ hj hok
      have := hget j
      rw [hj] at this
      rw [this]
      simp [itemEntry, hok]
  · intro hpre
    have := executeFrom_false_abort items i 0 it msg hit (by simpa using hfail) hpre
    simpa using this

/-- C2 witness: with continue-on-failure disabled the failing second
item aborts the run with its index and message. -/
theorem execute_error_policy_witness :
    execute false [sampleItem, failingItem]
      = .error { message := "API request failed", itemIndex := 1 } :=
  (execute_error_policy [sampleItem, failingItem] 1 failingItem
      "API request failed" rfl rfl).2 (fun j jt hj hg => by
    have hj0 : j = 0 := by omega
    subst hj0
    injection hg with he
    rw [← he]
    decide)

end UpscaleImg
